import Mathlib

/-!
Verification of the tsuru message-queue subsystem (package `queue`):
a broker that accepts producer connections, decodes a stream of
structured messages per connection, multiplexes all decoded messages
into a single consumption point, and supports redelivery via `PutBack`
with a visit counter.  The implementation of the `queue` package is
modelled here from its specification; the package's tests fix the
observable behavior (error strings, field names, channel shapes).
-/

namespace Queue

/-- Modelled from the spec: the `Message` struct of the missing
`queue` package source (fields `Action`, `Args`, `Visits` as used by
the tests): an action identifier, an ordered sequence of string
arguments, and a non-negative visit counter. -/
structure Message where
  Action : String
  Args : List String
  Visits : Nat
  deriving Repr, DecidableEq

/-- The zero value of `Message` (Go's `Message{}`). -/
def zeroMessage : Message := { Action := "", Args := [], Visits := 0 }

/-- Modelled from the spec: one token of the streaming, self-describing
wire encoding (gob in the missing source; byte compatibility is not
required by the spec, only that consecutive values are decodable
back-to-back with no hand-rolled framing). -/
inductive Token where
  | nat (n : Nat)
  | str (s : String)
  deriving Repr, DecidableEq

/-- Modelled from the spec: serialization of one `Message` onto the
stream, as done by the write-direction adapter of the missing source:
the action, the argument count, the arguments, the visit counter. -/
def encodeMsg (m : Message) : List Token :=
  Token.str m.Action :: Token.nat m.Args.length ::
    (m.Args.map Token.str ++ [Token.nat m.Visits])

/-- Modelled from the spec: serialization of a whole inbox worth of
messages, back-to-back on one open connection. -/
def encodeAll (ms : List Message) : List Token :=
  (ms.map encodeMsg).flatten

/-- Decode `n` consecutive string arguments from the token stream. -/
def decodeArgs : Nat → List Token → Option (List String × List Token)
  | 0, ts => some ([], ts)
  | n + 1, Token.str s :: ts =>
      (decodeArgs n ts).map (fun p => (s :: p.1, p.2))
  | _ + 1, _ => none

/-- Modelled from the spec: deserialization of one `Message` from the
front of the token stream, returning the decoded value and the
remainder of the stream, or `none` when the bytes do not form a
`Message` (including end-of-stream). -/
def decodeMsg : List Token → Option (Message × List Token)
  | Token.str a :: Token.nat n :: rest =>
      match decodeArgs n rest with
      | some (args, Token.nat v :: rest') =>
          some ({ Action := a, Args := args, Visits := v }, rest')
      | _ => none
  | _ => none

theorem decodeArgs_append (l : List String) (rest : List Token) :
    decodeArgs l.length (l.map Token.str ++ rest) = some (l, rest) := by
  induction l with
  | nil => rfl
  | cons s l ih => simp [decodeArgs, ih]

/-- Decoding the front of `encodeMsg m ++ rest` recovers `m` exactly and
leaves `rest`. -/
theorem decodeMsg_encodeMsg (m : Message) (rest : List Token) :
    decodeMsg (encodeMsg m ++ rest) = some (m, rest) := by
  simp [encodeMsg, decodeMsg, decodeArgs_append]

/-- Modelled from the spec: the error a connection's error path carries
when a stream ends or fails mid-read/mid-write — the source treats
"stream ended cleanly" and "stream errored" as a single disconnection
condition, tagged with a reason string. -/
inductive ConnErr where
  | disconnected (reason : String)
  deriving Repr, DecidableEq

/-- The error string of a connection error, as asserted by the tests
("EOF: client disconnected."). -/
def ConnErr.errString : ConnErr → String
  | .disconnected r => r ++ ": client disconnected."

/-- Modelled from the spec: the read loop of `ChannelFromReader`
(source adapter of the missing source), fuel-indexed for totality:
continuously deserialize one `Message` at a time and publish each,
until deserialization fails — end-of-stream is surfaced as a
disconnection error, never as silent termination.  The fuel never runs
out when it is at least the stream length, since every successful
decode consumes at least one token. -/
def readAllF : Nat → List Token → List Message × ConnErr
  | _, [] => ([], ConnErr.disconnected "EOF")
  | 0, _ :: _ => ([], ConnErr.disconnected "decode")
  | fuel + 1, t :: ts =>
      match decodeMsg (t :: ts) with
      | some (m, rest) =>
          let r := readAllF fuel rest
          (m :: r.1, r.2)
      | none => ([], ConnErr.disconnected "decode")

/-- Modelled from the spec: `ChannelFromReader` — the messages a
connection's read direction publishes, in decode order, followed by the
single terminal error on the error source. -/
def ChannelFromReader (ts : List Token) : List Message × ConnErr :=
  readAllF ts.length ts

theorem readAllF_encodeAll (ms : List Message) (junk : List Token)
    (hjunk : decodeMsg junk = none) :
    ∀ fuel, (encodeAll ms ++ junk).length ≤ fuel →
      readAllF fuel (encodeAll ms ++ junk) =
        (ms, ConnErr.disconnected (if junk.isEmpty then "EOF" else "decode")) := by
  induction ms with
  | nil =>
    intro fuel hfuel
    cases junk with
    | nil => simp [encodeAll, readAllF]
    | cons t ts =>
      cases fuel with
      | zero => simp [encodeAll] at hfuel
      | succ f => simp [encodeAll, readAllF, hjunk]
  | cons m ms ih =>
    intro fuel hfuel
    have henc : encodeAll (m :: ms) ++ junk
        = encodeMsg m ++ (encodeAll ms ++ junk) := by
      simp [encodeAll]
    have hdec : decodeMsg (encodeAll (m :: ms) ++ junk)
        = some (m, encodeAll ms ++ junk) := by
      rw [henc]; exact decodeMsg_encodeMsg m _
    cases fuel with
    | zero =>
      rw [henc] at hfuel
      simp [encodeMsg] at hfuel
    | succ f =>
      have hrest : (encodeAll ms ++ junk).length ≤ f := by
        rw [henc] at hfuel
        simp only [List.length_append, encodeMsg, List.length_cons,
          List.length_map] at hfuel ⊢
        omega
      obtain ⟨t, ts, hts⟩ : ∃ t ts, encodeAll (m :: ms) ++ junk = t :: ts := by
        cases h : encodeAll (m :: ms) ++ junk with
        | nil =>
          rw [henc] at h
          simp [encodeMsg] at h
        | cons t ts => exact ⟨t, ts, rfl⟩
      rw [hts] at hdec ⊢
      simp only [readAllF, hdec, ih f hrest]

/-- `encodeMsg` always starts with the action token; used to expose the
head of the stream for `readAllF`. -/
theorem encodeMsg_head (m : Message) :
    encodeMsg m = Token.str m.Action :: (Token.nat m.Args.length ::
      (m.Args.map Token.str ++ [Token.nat m.Visits])) := rfl

/-- `ChannelFromReader` on a well-formed stream of encoded messages
followed by undecodable residue delivers exactly the sent messages in
order, then one disconnection error (clean end-of-stream included). -/
theorem ChannelFromReader_encodeAll (ms : List Message) (junk : List Token)
    (hjunk : decodeMsg junk = none) :
    ChannelFromReader (encodeAll ms ++ junk) =
      (ms, ConnErr.disconnected (if junk.isEmpty then "EOF" else "decode")) :=
  readAllF_encodeAll ms junk hjunk _ le_rfl

/-- Modelled from the spec: the byte stream underlying a sink adapter.
`CanClose` says whether the stream exposes a close operation (Go: the
writer also implements `io.Closer`); `capacity` models the write
direction failing: `some k` means the stream accepts `k` message
writes and then every further write fails (a closed connection is
`some 0`, as in the tests' `FakeConn`); `none` means writes always
succeed. -/
structure WStream where
  CanClose : Bool
  capacity : Option Nat

/-- Modelled from the spec: the observable outcome of running the
write loop of `ChannelFromWriter` (sink adapter of the missing source)
over a whole inbox that its owner eventually closes: the tokens
serialized onto the stream, the errors delivered on the error source,
the inbox entries left unprocessed after a failure, whether the
underlying stream was closed, whether the error source was closed, and
whether the adapter itself closed the inbox. -/
structure WriteResult where
  out : List Token
  errs : List String
  remaining : List Message
  streamClosed : Bool
  errClosed : Bool
  inboxClosedByAdapter : Bool
  deriving Repr, DecidableEq

/-- Modelled from the spec: the `write` goroutine of the missing
source.  Each inbox entry is serialized onto the stream in order, one
at a time; on a write failure the error is delivered on the error
source and the loop stops processing further inbox entries, without
closing the inbox; when the inbox is closed by its owner (the list
ends), the adapter closes the underlying stream when it has a close
operation, and closes the error source. -/
def write (st : WStream) : List Message → WriteResult
  | [] =>
      { out := [], errs := [], remaining := [],
        streamClosed := st.CanClose, errClosed := true,
        inboxClosedByAdapter := false }
  | m :: rest =>
      match st.capacity with
      | some 0 =>
          { out := [], errs := ["Closed connection."], remaining := rest,
            streamClosed := st.CanClose, errClosed := true,
            inboxClosedByAdapter := false }
      | some (k + 1) =>
          let r := write { st with capacity := some k } rest
          { r with out := encodeMsg m ++ r.out }
      | none =>
          let r := write st rest
          { r with out := encodeMsg m ++ r.out }

/-- Modelled from the spec: `ChannelFromWriter` — returns the result of
draining the caller's whole inbox through the write loop. -/
def ChannelFromWriter (st : WStream) (inbox : List Message) : WriteResult :=
  write st inbox

/-- Modelled from the spec: `Dial` — connects and exposes the same
sink adapter over the new connection; the connection has a close
operation, so the stream of a dialed client always has `CanClose`. -/
def Dial (capacity : Option Nat) (inbox : List Message) : WriteResult :=
  ChannelFromWriter { CanClose := true, capacity := capacity } inbox

/-- On a stream whose writes all succeed, the write loop serializes the
whole inbox back-to-back and reports no error. -/
theorem write_none (c : Bool) (inbox : List Message) :
    write { CanClose := c, capacity := none } inbox =
      { out := encodeAll inbox, errs := [], remaining := [],
        streamClosed := c, errClosed := true,
        inboxClosedByAdapter := false } := by
  induction inbox with
  | nil => simp [write, encodeAll]
  | cons m rest ih => simp [write, ih, encodeAll]

/-- On a stream that fails at the `k`-th write with `k` entries still
ahead, the write loop emits the first `k` encodings, one error, and
leaves the entries after the failing one unprocessed. -/
theorem write_fail (c : Bool) (inbox : List Message) :
    ∀ k, k < inbox.length →
      write { CanClose := c, capacity := some k } inbox =
        { out := encodeAll (inbox.take k), errs := ["Closed connection."],
          remaining := inbox.drop (k + 1),
          streamClosed := c, errClosed := true,
          inboxClosedByAdapter := false } := by
  induction inbox with
  | nil => intro k hk; simp at hk
  | cons m rest ih =>
    intro k hk
    cases k with
    | zero => simp [write, encodeAll]
    | succ k =>
      have hk' : k < rest.length := by
        simpa [Nat.succ_lt_succ_iff] using hk
      simp [write, ih k hk', encodeAll]

/-- Modelled from the spec: the error kinds the broker's `Message`
call can return — a per-connection disconnection forwarded from a
pairing, the timeout kind, and the already-closed kind from `Close`;
callers distinguish connection-level errors from timeouts by kind. -/
inductive QErr where
  | timeout
  | alreadyClosed
  | conn (e : ConnErr)
  deriving Repr, DecidableEq

/-- The error string of each broker error kind, as asserted by the
tests. -/
def QErr.errString : QErr → String
  | .timeout => "Timed out waiting for the message."
  | .alreadyClosed => "Server already closed."
  | .conn e => e.errString

/-- Modelled from the spec: the `pair` struct of the missing source
(a Result pair): either a successfully decoded message or the error
describing why decoding/connection failed; exactly one of the two is
populated. -/
inductive pair where
  | msg (m : Message)
  | err (e : ConnErr)
  deriving Repr, DecidableEq

/-- Whether a Result pair carries an error. -/
def pair.isErr : pair → Bool
  | .msg _ => false
  | .err _ => true

/-- What the broker's `Message` call returns for a Result pair taken
from the unified consumption point: the decoded message with no error,
or the zero message with the connection error (only one side of the
pair is populated). -/
def pair.deliver : pair → Message × Option QErr
  | .msg m => (m, none)
  | .err e => (zeroMessage, some (QErr.conn e))

/-- Modelled from the spec: the `Server` struct of the missing source:
the unified consumption point `pairs` fed by all paired connections
(modelled as the FIFO list of Result pairs pending consumption) and
the open/closed flag, which transitions open→closed exactly once. -/
structure Server where
  pairs : List pair
  closed : Bool
  deriving Repr, DecidableEq

/-- Modelled from the spec: `StartServer` — a freshly started broker:
open, with nothing pending at the unified consumption point (the
listening socket itself is out of scope of the claims). -/
def StartServer : Server := { pairs := [], closed := false }

/-- The outcome of one `Server.Message` call: the call returns a
(message, optional error) pair, or it blocks because nothing is
pending and the timeout is non-positive. -/
inductive MessageResult where
  | ret (m : Message) (e : Option QErr)
  | blocks
  deriving Repr, DecidableEq

/-- Modelled from the spec: `Server.Message(timeout)` — blocks until a
Result pair is available at the unified consumption point or until a
positive timeout elapses; a non-positive timeout blocks indefinitely.
When a pair is pending it is consumed and delivered; on a positive
timeout with nothing pending, the zero message and a Timeout error are
returned. -/
def Server.Message (s : Server) (timeout : Int) : MessageResult × Server :=
  match s.pairs with
  | p :: rest => (MessageResult.ret p.deliver.1 p.deliver.2, { s with pairs := rest })
  | [] =>
      if 0 < timeout then (MessageResult.ret zeroMessage (some QErr.timeout), s)
      else (MessageResult.blocks, s)

/-- Modelled from the spec: `Server.PutBack(message)` — increments the
message's visit counter by exactly 1 and re-enqueues it at the unified
consumption point for a future `Message` call to retrieve. -/
def Server.PutBack (s : Server) (m : Queue.Message) : Server :=
  { s with pairs := s.pairs ++ [pair.msg { m with Visits := m.Visits + 1 }] }

/-- Modelled from the spec: `Server.Close` — closes the broker exactly
once; a second call fails with an AlreadyClosed error instead of being
a no-op. -/
def Server.Close (s : Server) : Except QErr Unit × Server :=
  if s.closed then (Except.error QErr.alreadyClosed, s)
  else (Except.ok (), { s with closed := true })

/-- Modelled from the spec: `Server.handle` over one accepted
connection's whole stream — the read-direction adapter's decoded
messages are forwarded one-for-one, in order, as successful Result
pairs, then the single terminal connection error as one error pair,
all appended at the unified consumption point. -/
def Server.handle (s : Server) (ts : List Token) : Server :=
  let r := ChannelFromReader ts
  { s with pairs := s.pairs ++ r.1.map pair.msg ++ [pair.err r.2] }

/-- `n` successive blocking `Server.Message (-1)` calls and their
outcomes, in order. -/
def drain : Nat → Server → List MessageResult × Server
  | 0, s => ([], s)
  | n + 1, s =>
      let r := s.Message (-1)
      let rest := drain n r.2
      (r.1 :: rest.1, rest.2)

/-- `n` successive `Server.Close` calls and their outcomes, in
order. -/
def closeSeq : Nat → Server → List (Except QErr Unit) × Server
  | 0, s => ([], s)
  | n + 1, s =>
      let r := s.Close
      let rest := closeSeq n r.2
      (r.1 :: rest.1, rest.2)

/-- The redelivery cycle of the PutBack test: put the held message
back, then retrieve it again via `Message` with the test's timeout,
`n` times over. -/
def putBackCycle : Nat → Server → Message → Server × Message
  | 0, s, m => (s, m)
  | n + 1, s, m =>
      match (s.PutBack m).Message 1000000 with
      | (MessageResult.ret m' _, s') => putBackCycle n s' m'
      | (MessageResult.blocks, s') => (s', m)

theorem closeSeq_closed (n : Nat) (s : Server) (h : s.closed = true) :
    closeSeq n s = (List.replicate n (Except.error QErr.alreadyClosed), s) := by
  induction n with
  | zero => simp [closeSeq]
  | succ n ih => simp [closeSeq, Server.Close, h, ih, List.replicate]

/-- C3: on a started (open) broker the first `Close` returns success
and every one of the `n` subsequent `Close` calls returns the
AlreadyClosed error; the open→closed transition happens exactly once
and the broker stays closed. -/
theorem Close_first_ok_then_alreadyClosed (s : Server) (h : s.closed = false) (n : Nat) :
    closeSeq (n + 1) s =
      (Except.ok () :: List.replicate n (Except.error QErr.alreadyClosed),
        { s with closed := true }) := by
  simp [closeSeq, Server.Close, h, closeSeq_closed]

/-- `Close` on the fresh broker succeeds and the two subsequent calls
both fail with the AlreadyClosed error. -/
theorem Close_first_ok_then_alreadyClosed_witness :
    closeSeq 3 StartServer =
      (Except.ok () :: List.replicate 2 (Except.error QErr.alreadyClosed),
        { StartServer with closed := true }) :=
  Close_first_ok_then_alreadyClosed StartServer rfl 2

/-- C4: with a non-positive timeout, `Message` on an open broker never
returns a Timeout error: it blocks exactly when nothing is pending at
the unified consumption point, and when a Result pair is pending it
returns that pair's message or error. -/
theorem Message_nonpositive_timeout_blocks (s : Server) (t : Int)
    (hopen : s.closed = false) (h : t ≤ 0) :
    (s.pairs = [] → (s.Message t).1 = MessageResult.blocks) ∧
    (∀ p rest, s.pairs = p :: rest →
      s.Message t = (MessageResult.ret p.deliver.1 p.deliver.2, { s with pairs := rest })) ∧
    (∀ m, (s.Message t).1 ≠ MessageResult.ret m (some QErr.timeout)) := by
  refine ⟨?_, ?_, ?_⟩
  · intro hp
    simp [Server.Message, hp, not_lt.mpr h]
  · intro p rest hp
    simp [Server.Message, hp]
  · intro m hm
    rcases hp : s.pairs with _ | ⟨p, rest⟩
    · simp [Server.Message, hp, not_lt.mpr h] at hm
    · cases p <;> simp [Server.Message, hp, pair.deliver] at hm

/-- A pending message is returned as-is by `Message (-1)` on an open
broker. -/
theorem Message_nonpositive_timeout_blocks_witness :
    (Server.mk [pair.msg { Action := "create", Args := [], Visits := 0 }] false).Message (-1)
      = (MessageResult.ret { Action := "create", Args := [], Visits := 0 } none,
          Server.mk [] false) :=
  (Message_nonpositive_timeout_blocks
      (Server.mk [pair.msg { Action := "create", Args := [], Visits := 0 }] false)
      (-1) rfl (by decide)).2.1
    (pair.msg { Action := "create", Args := [], Visits := 0 }) [] rfl

/-- C5: with a positive timeout and nothing pending at the unified
consumption point, `Message` returns the Timeout error and the zero
message; and a Timeout error is returned only in that situation. -/
theorem Message_positive_timeout_empty (s : Server) (t : Int) :
    (0 < t → s.pairs = [] →
      s.Message t = (MessageResult.ret zeroMessage (some QErr.timeout), s)) ∧
    (∀ m, (s.Message t).1 = MessageResult.ret m (some QErr.timeout) →
      0 < t ∧ s.pairs = [] ∧ m = zeroMessage) := by
  constructor
  · intro ht hp
    simp [Server.Message, hp, ht]
  · intro m hm
    rcases hp : s.pairs with _ | ⟨p, rest⟩
    · by_cases ht : 0 < t
      · simp [Server.Message, hp, ht] at hm
        exact ⟨ht, rfl, hm.symm⟩
      · simp [Server.Message, hp, ht] at hm
    · cases p <;> simp [Server.Message, hp, pair.deliver] at hm

/-- `Message 5` on the fresh empty broker returns the Timeout error. -/
theorem Message_positive_timeout_empty_witness :
    StartServer.Message 5 = (MessageResult.ret zeroMessage (some QErr.timeout), StartServer) :=
  (Message_positive_timeout_empty StartServer 5).1 (by decide) rfl

/-- C10: whenever `Message` returns with an error, the message value
returned alongside it is the zero message: empty action, no args,
visit count 0. -/
theorem Message_error_returns_zeroMessage (s : Server) (t : Int) (m : Message)
    (e : QErr) (s' : Server)
    (h : s.Message t = (MessageResult.ret m (some e), s')) :
    m = zeroMessage ∧ m.Action = "" ∧ m.Args = [] ∧ m.Visits = 0 := by
  have hz : m = zeroMessage := by
    rcases hp : s.pairs with _ | ⟨p, rest⟩
    · by_cases ht : 0 < t
      · simp [Server.Message, hp, ht] at h
        exact h.1.1.symm
      · simp [Server.Message, hp, ht] at h
    · cases p with
      | msg m0 => simp [Server.Message, hp, pair.deliver] at h
      | err e0 =>
        simp [Server.Message, hp, pair.deliver] at h
        exact h.1.1.symm
  subst hz
  simp [zeroMessage]

/-- When a disconnection error pair is pending, `Message` returns the
zero message alongside the error. -/
theorem Message_error_returns_zeroMessage_witness :
    zeroMessage = zeroMessage ∧ zeroMessage.Action = ""
      ∧ zeroMessage.Args = [] ∧ zeroMessage.Visits = 0 :=
  Message_error_returns_zeroMessage
    (Server.mk [pair.err (ConnErr.disconnected "EOF")] false) 1000000000
    zeroMessage (QErr.conn (ConnErr.disconnected "EOF")) (Server.mk [] false) rfl

theorem putBackCycle_empty :
    ∀ (n : Nat) (s : Server) (m : Message), s.pairs = [] →
      putBackCycle n s m = (s, { m with Visits := m.Visits + n }) := by
  intro n
  induction n with
  | zero => intro s m hp; rfl
  | succ n ih =>
    intro s m hp
    obtain ⟨ps, c⟩ := s
    simp only at hp
    subst hp
    have harith : m.Visits + 1 + n = m.Visits + (n + 1) := by omega
    simp [putBackCycle, Server.PutBack, Server.Message, pair.deliver, ih, harith]

/-- C1: on a broker with nothing else pending, putting a message back
and retrieving it again `n ≥ 1` times over yields a message with the
same action and the same args whose visit counter is the original plus
`n`; in particular one `PutBack` then `Message` adds exactly 1 and
changes no other field. -/
theorem PutBack_increments_visits (m : Message) (n : Nat) (s : Server)
    (hn : 1 ≤ n) (hp : s.pairs = []) :
    (putBackCycle n s m).2.Action = m.Action ∧
    (putBackCycle n s m).2.Args = m.Args ∧
    (putBackCycle n s m).2.Visits = m.Visits + n := by
  simp [putBackCycle_empty n s m hp]

/-- Two put-back/retrieve rounds on the fresh broker take the test's
message from 0 to 2 visits, keeping action and args. -/
theorem PutBack_increments_visits_witness :
    (putBackCycle 2 StartServer { Action := "delete", Args := [], Visits := 0 }).2.Action = "delete" ∧
    (putBackCycle 2 StartServer { Action := "delete", Args := [], Visits := 0 }).2.Args = [] ∧
    (putBackCycle 2 StartServer { Action := "delete", Args := [], Visits := 0 }).2.Visits = 2 :=
  PutBack_increments_visits { Action := "delete", Args := [], Visits := 0 } 2 StartServer
    (by decide) rfl

theorem drain_msgs :
    ∀ (ms : List Message) (s : Server) (tail : List pair),
      s.pairs = ms.map pair.msg ++ tail →
        drain ms.length s =
          (ms.map (fun m => MessageResult.ret m none), { s with pairs := tail }) := by
  intro ms
  induction ms with
  | nil =>
    intro s tail hp
    obtain ⟨ps, c⟩ := s
    simp only [List.map_nil, List.nil_append] at hp
    subst hp
    rfl
  | cons m ms ih =>
    intro s tail hp
    obtain ⟨ps, c⟩ := s
    simp only [List.map_cons, List.cons_append] at hp
    subst hp
    simp [drain, Server.Message, pair.deliver,
      ih (Server.mk (ms.map pair.msg ++ tail) c) tail rfl]

/-- `ChannelFromReader` over the exact token stream a failure-free sink
serializes an inbox into. -/
theorem ChannelFromReader_of_sink (c : Bool) (ms : List Message) :
    ChannelFromReader (ChannelFromWriter { CanClose := c, capacity := none } ms).out
      = (ms, ConnErr.disconnected "EOF") := by
  rw [show (ChannelFromWriter { CanClose := c, capacity := none } ms).out = encodeAll ms by
    rw [ChannelFromWriter, write_none]]
  simpa using ChannelFromReader_encodeAll ms [] rfl

/-- C7: the messages one connection's sink sends, in order, are exactly
what successive `Message` calls on the broker deliver for that
connection: one successful result per sent message, in send order,
none lost, none duplicated. -/
theorem per_connection_fifo (ms : List Message) (s : Server) (hp : s.pairs = []) :
    (drain ms.length
        (s.handle (ChannelFromWriter { CanClose := true, capacity := none } ms).out)).1
      = ms.map (fun m => MessageResult.ret m none) := by
  have hpairs :
      (s.handle (ChannelFromWriter { CanClose := true, capacity := none } ms).out).pairs
        = ms.map pair.msg ++ [pair.err (ConnErr.disconnected "EOF")] := by
    simp [Server.handle, ChannelFromReader_of_sink, hp]
  rw [drain_msgs ms _ _ hpairs]

/-- Ten sent messages come back as ten successful results in send
order. -/
theorem per_connection_fifo_witness :
    (drain 2 (StartServer.handle (ChannelFromWriter { CanClose := true, capacity := none }
        [{ Action := "test", Args := ["0"], Visits := 0 },
         { Action := "test", Args := ["1"], Visits := 0 }]).out)).1
      = [MessageResult.ret { Action := "test", Args := ["0"], Visits := 0 } none,
         MessageResult.ret { Action := "test", Args := ["1"], Visits := 0 } none] :=
  per_connection_fifo
    [{ Action := "test", Args := ["0"], Visits := 0 },
     { Action := "test", Args := ["1"], Visits := 0 }] StartServer rfl

/-- C2: a message with visit count 0 sent through the sink a dialed
client obtains, then decoded by the broker from the wire, is returned
by `Message` structurally unchanged — encode-then-decode over the wire
is the identity on first delivery. -/
theorem Dial_round_trip (m : Message) (s : Server)
    (hv : m.Visits = 0) (hp : s.pairs = []) :
    ((s.handle (Dial none [m]).out).Message 2000000000).1
      = MessageResult.ret m none := by
  have hread : ChannelFromReader (Dial none [m]).out = ([m], ConnErr.disconnected "EOF") :=
    ChannelFromReader_of_sink true [m]
  simp [Server.handle, hread, hp, Server.Message, pair.deliver]

/-- The test's message round-trips through the dialed sink and the
broker unchanged. -/
theorem Dial_round_trip_witness :
    ((StartServer.handle
        (Dial none [{ Action := "delete", Args := ["something"], Visits := 0 }]).out).Message
        2000000000).1
      = MessageResult.ret { Action := "delete", Args := ["something"], Visits := 0 } none :=
  Dial_round_trip { Action := "delete", Args := ["something"], Visits := 0 } StartServer rfl rfl

/-- C6: when a producer connection's stream ends — cleanly after its
encoded messages, or mid-read on undecodable residue — exactly one
error pair reaches the unified consumption point, it is of the
Disconnected kind (never silence, never a Timeout), and after the
connection's messages are drained the broker's next `Message` call
returns exactly that Disconnected error. -/
theorem disconnect_surfaced_once (ms : List Message) (junk : List Token) (s : Server)
    (hp : s.pairs = []) (hjunk : decodeMsg junk = none) :
    ((s.handle (encodeAll ms ++ junk)).pairs.countP pair.isErr = 1) ∧
    (((drain ms.length (s.handle (encodeAll ms ++ junk))).2.Message 1000000000).1
      = MessageResult.ret zeroMessage
          (some (QErr.conn (ConnErr.disconnected (if junk.isEmpty then "EOF" else "decode"))))) := by
  have hread := ChannelFromReader_encodeAll ms junk hjunk
  have hpairs : (s.handle (encodeAll ms ++ junk)).pairs
      = ms.map pair.msg
        ++ [pair.err (ConnErr.disconnected (if junk.isEmpty then "EOF" else "decode"))] := by
    simp [Server.handle, hread, hp]
  constructor
  · rw [hpairs]
    simp [List.countP_append, List.countP_map, Function.comp, pair.isErr,
      List.countP_cons]
  · rw [drain_msgs ms _ _ hpairs]
    simp [Server.Message, pair.deliver]

/-- A client that dials, sends nothing and closes its connection makes
the broker's next `Message` call return the EOF disconnection error
with the zero message, delivered exactly once. -/
theorem disconnect_surfaced_once_witness :
    ((StartServer.handle (encodeAll [] ++ [])).pairs.countP pair.isErr = 1) ∧
    (((drain 0 (StartServer.handle (encodeAll [] ++ []))).2.Message 1000000000).1
      = MessageResult.ret zeroMessage
          (some (QErr.conn (ConnErr.disconnected "EOF")))) :=
  disconnect_surfaced_once [] [] StartServer rfl rfl

/-- C8: when the owner closes the inbox of a sink adapter over a
stream whose writes all succeed, the adapter closes the underlying
stream exactly when the stream has a close operation, closes the error
source, and never delivered any error on it; the sink of a dialed
client always closes its connection. -/
theorem inbox_close_closes_stream (st : WStream) (inbox : List Message)
    (h : st.capacity = none) :
    (ChannelFromWriter st inbox).streamClosed = st.CanClose ∧
    (ChannelFromWriter st inbox).errClosed = true ∧
    (ChannelFromWriter st inbox).errs = [] ∧
    (Dial none inbox).streamClosed = true := by
  obtain ⟨c, cap⟩ := st
  simp only at h
  subst h
  simp [ChannelFromWriter, Dial, write_none]

/-- Closing the inbox after one message closes the dialed connection
and its error source with no errors delivered. -/
theorem inbox_close_closes_stream_witness :
    (ChannelFromWriter { CanClose := true, capacity := none }
        [{ Action := "delete", Args := ["everything"], Visits := 0 }]).streamClosed = true ∧
    (ChannelFromWriter { CanClose := true, capacity := none }
        [{ Action := "delete", Args := ["everything"], Visits := 0 }]).errClosed = true ∧
    (ChannelFromWriter { CanClose := true, capacity := none }
        [{ Action := "delete", Args := ["everything"], Visits := 0 }]).errs = [] ∧
    (Dial none [{ Action := "delete", Args := ["everything"], Visits := 0 }]).streamClosed = true :=
  inbox_close_closes_stream { CanClose := true, capacity := none }
    [{ Action := "delete", Args := ["everything"], Visits := 0 }] rfl

/-- C9: when serializing or writing the `k`-th inbox entry fails, the
sink adapter delivers that one error on its error source, stops
processing the entries after the failing one, and does not close the
inbox — only the entries before the failure were serialized. -/
theorem write_error_stops_without_closing_inbox (st : WStream) (inbox : List Message)
    (k : Nat) (hcap : st.capacity = some k) (hk : k < inbox.length) :
    (ChannelFromWriter st inbox).errs = ["Closed connection."] ∧
    (ChannelFromWriter st inbox).remaining = inbox.drop (k + 1) ∧
    (ChannelFromWriter st inbox).out = encodeAll (inbox.take k) ∧
    (ChannelFromWriter st inbox).inboxClosedByAdapter = false := by
  obtain ⟨c, cap⟩ := st
  simp only at hcap
  subst hcap
  simp [ChannelFromWriter, write_fail c inbox k hk]

/-- Sending one message into the sink of an already-closed connection
delivers the closed-connection error and closes nothing the caller
owns. -/
theorem write_error_stops_without_closing_inbox_witness :
    (ChannelFromWriter { CanClose := true, capacity := some 0 } [zeroMessage]).errs
        = ["Closed connection."] ∧
    (ChannelFromWriter { CanClose := true, capacity := some 0 } [zeroMessage]).remaining = [] ∧
    (ChannelFromWriter { CanClose := true, capacity := some 0 } [zeroMessage]).out = encodeAll [] ∧
    (ChannelFromWriter { CanClose := true, capacity := some 0 } [zeroMessage]).inboxClosedByAdapter
        = false :=
  write_error_stops_without_closing_inbox { CanClose := true, capacity := some 0 }
    [zeroMessage] 0 rfl (by decide)

end Queue
